import Mathlib

/-!
Shallow embedding of the `prettytable-rs` table-rendering library
(`src/lib.rs`, `src/row.rs`, `src/cell.rs`, `src/cell_content.rs`) and
verification of a list of claims about it.

The repository declares `mod format;` and `mod utils;` but those two files
are not part of the given sources; the few pieces of them that the claims
touch (`TableFormat`, `LinePosition`) are modelled from the specification
and treated opaquely.  Machine integers (`usize`) are modelled as `Nat`
(none of the verified operations can overflow a 64-bit `usize` in a way
the claims depend on), Rust `Vec`/slice values are Lean `List`s, fallible
operations return `Option`/`Except`, and in-place mutation is rendered as
explicit state passing.
-/

namespace PrettyTable

/-- Alignment of a cell's text, from `format.rs` (missing from the sources).
Modelled from the spec: "an `Alignment` enum \x7bLEFT, CENTER, RIGHT\x7d". -/
inductive Alignment where
  | LEFT
  | CENTER
  | RIGHT
deriving DecidableEq, Repr

/-- Positions of line separators in a table.
Modelled from the spec: `format.rs` is not under `src/`;
"Positions for line separators: \x7bTop, Title, Intern, Bottom\x7d". -/
inductive LinePosition where
  | Top
  | Title
  | Intern
  | Bottom
deriving DecidableEq, Repr

/-- One line-separator specification.
Modelled from the spec: `format.rs` is not under `src/`; each present line
separator has "a resolved set of four characters (horizontal fill,
intersection, left-end, right-end)". -/
structure LineSeparator where
  fill : Char
  junction : Char
  left_end : Char
  right_end : Char
deriving DecidableEq, Repr

/-- Table format configuration.
Modelled from the spec: `format.rs` is not under `src/`; "a position-keyed
configuration: borders (left/right of whole grid), column separators
(between two columns), line separators (top of table, under title, between
interior rows, bottom of table) each independently nullable/present, ...
padding (left, right cell-internal spacing), and an indent".  The claims
verified here treat the format opaquely (it is carried around and shared,
never inspected). -/
structure TableFormat where
  sep_top : Option LineSeparator := none
  sep_title : Option LineSeparator := none
  sep_intern : Option LineSeparator := none
  sep_bottom : Option LineSeparator := none
  border_left : Option Char := none
  column_sep : Option Char := none
  border_right : Option Char := none
  pad_left : Nat := 0
  pad_right : Nat := 0
  indent : Nat := 0
deriving DecidableEq, Repr

instance : Inhabited TableFormat := ⟨{}⟩

/-- Rust's `String::len`: the length of the string in bytes (UTF-8). -/
def String.len (s : String) : Nat := s.utf8ByteSize

/-- Split a list of characters at every occurrence of `sep` (the
separator itself is dropped; `n` separators yield `n + 1` parts). -/
def splitChar (sep : Char) : List Char → List (List Char)
  | [] => [[]]
  | c :: cs =>
    let rest := splitChar sep cs
    if c = sep then [] :: rest
    else match rest with
      | [] => [[c]]
      | r :: rs => (c :: r) :: rs

/-- Rust's `str::lines` on the character list of a string: split on `\n`,
a final trailing newline does not produce an extra empty line, and a
trailing `\r` is stripped from each line; the empty string yields no
lines. -/
def rustLinesChars (cs : List Char) : List (List Char) :=
  if cs = [] then []
  else
    let parts := splitChar '\n' cs
    let parts :=
      if parts.getLast? = some [] ∧ 1 < parts.length then parts.dropLast
      else parts
    parts.map (fun l => if l.getLast? = some '\r' then l.dropLast else l)

/-- Rust's `str::lines`, as a list of strings. -/
def rustLines (s : String) : List String :=
  (rustLinesChars s.data).map String.mk

/-- The `CellContent` trait from `cell_content.rs`. -/
class CellContent (T : Type) where
  get_width : T → Nat
  get_height : T → Nat
  get_lines : T → List String

/-- The `CellLines` struct from `cell_content.rs`: a list of display lines. -/
structure CellLines where
  lines : List String
deriving DecidableEq, Repr

/-- `#[derive(Default)]` on `CellLines`: an empty list of lines. -/
def CellLines.default : CellLines := ⟨[]⟩

instance : Inhabited CellLines := ⟨CellLines.default⟩

/-- `impl<T: ToString> From<T> for CellLines` from `cell_content.rs`,
at `T = String`: `value.to_string().lines().map(str::to_owned).collect()`. -/
def CellLines.fromString (value : String) : CellLines :=
  ⟨rustLines value⟩

/-- `CellLines::get_width` from `cell_content.rs`:
`self.lines.iter().map(String::len).max().unwrap_or(0)`.
Note that this is the maximum *byte* length of the lines. -/
def CellLines.get_width (self : CellLines) : Nat :=
  ((self.lines.map String.len).max?).getD 0

/-- `CellLines::get_height` from `cell_content.rs`: `self.lines.len()`. -/
def CellLines.get_height (self : CellLines) : Nat :=
  self.lines.length

/-- `CellLines::get_lines` from `cell_content.rs`. -/
def CellLines.get_lines (self : CellLines) : List String :=
  self.lines

instance : CellContent CellLines :=
  ⟨CellLines.get_width, CellLines.get_height, CellLines.get_lines⟩

namespace color

/-! Color constants of the external `term` crate (`term::color`), an
external collaborator of the repository.  Only the identity of each
constant matters to the claims, never its numeric value. -/

def BLACK : Nat := 0
def RED : Nat := 1
def GREEN : Nat := 2
def YELLOW : Nat := 3
def BLUE : Nat := 4
def MAGENTA : Nat := 5
def CYAN : Nat := 6
def WHITE : Nat := 7
def BRIGHT_BLACK : Nat := 8
def BRIGHT_RED : Nat := 9
def BRIGHT_GREEN : Nat := 10
def BRIGHT_YELLOW : Nat := 11
def BRIGHT_BLUE : Nat := 12
def BRIGHT_MAGENTA : Nat := 13
def BRIGHT_CYAN : Nat := 14
def BRIGHT_WHITE : Nat := 15

end color

/-- Style attributes of the external `term` crate (`term::Attr`). -/
inductive Attr where
  | Bold
  | Dim
  | Italic (b : Bool)
  | Underline (b : Bool)
  | Blink
  | Standout (b : Bool)
  | Reverse
  | Secure
  | ForegroundColor (c : Nat)
  | BackgroundColor (c : Nat)
deriving DecidableEq, Repr

/-- The `Cell` struct from `cell.rs`: one content value, an alignment and
a list of style attributes. -/
structure Cell (T : Type) where
  content : T
  align : Alignment
  style : List Attr
deriving DecidableEq, Repr

/-- `Cell::new_align` from `cell.rs`. -/
def Cell.new_align (content : T) (align : Alignment) : Cell T :=
  { content := content, align := align, style := [] }

/-- `Cell::new` from `cell.rs`: content aligned `LEFT`, no style. -/
def Cell.new (content : T) : Cell T :=
  Cell.new_align content Alignment.LEFT

/-- `Cell::align` from `cell.rs` (named `set_align` here because the
field projection `Cell.align` already carries the source name). -/
def Cell.set_align (self : Cell T) (align : Alignment) : Cell T :=
  { self with align := align }

/-- `Cell::style` from `cell.rs`: push one style attribute (named
`add_style` here because the field projection `Cell.style` already
carries the source name). -/
def Cell.add_style (self : Cell T) (attr : Attr) : Cell T :=
  { self with style := self.style ++ [attr] }

/-- `Cell::with_style` from `cell.rs`. -/
def Cell.with_style (self : Cell T) (attr : Attr) : Cell T :=
  self.add_style attr

/-- `Cell::reset_style` from `cell.rs`: clear the attributes and reset
the alignment to `LEFT`. -/
def Cell.reset_style (self : Cell T) : Cell T :=
  { self with style := [], align := Alignment.LEFT }

/-- `Cell::get_height` from `cell.rs`. -/
def Cell.get_height [CellContent T] (self : Cell T) : Nat :=
  CellContent.get_height self.content

/-- `Cell::get_width` from `cell.rs`. -/
def Cell.get_width [CellContent T] (self : Cell T) : Nat :=
  CellContent.get_width self.content

/-- `impl Default for Cell` from `cell.rs`: default content, `LEFT`
alignment, no style. -/
def Cell.default [Inhabited T] : Cell T :=
  { content := Inhabited.default, align := Alignment.LEFT, style := [] }

/-- The 16-entry color table of `Cell::style_spec` (the `match c` inside
the `if foreground || background` branch of `cell.rs`), `none` for the
fall-through arm. -/
def colorOf (c : Char) : Option Nat :=
  match c with
  | 'r' => some color.RED
  | 'R' => some color.BRIGHT_RED
  | 'b' => some color.BLUE
  | 'B' => some color.BRIGHT_BLUE
  | 'g' => some color.GREEN
  | 'G' => some color.BRIGHT_GREEN
  | 'y' => some color.YELLOW
  | 'Y' => some color.BRIGHT_YELLOW
  | 'c' => some color.CYAN
  | 'C' => some color.BRIGHT_CYAN
  | 'm' => some color.MAGENTA
  | 'M' => some color.BRIGHT_MAGENTA
  | 'w' => some color.WHITE
  | 'W' => some color.BRIGHT_WHITE
  | 'd' => some color.BLACK
  | 'D' => some color.BRIGHT_BLACK
  | _ => none

/-- One iteration of the `for c in spec.chars()` loop of
`Cell::style_spec` from `cell.rs`.  The state is the cell being built
together with the `foreground` and `background` flags. -/
def style_spec_step (st : Cell T × Bool × Bool) (c : Char) : Cell T × Bool × Bool :=
  let (cell, foreground, background) := st
  if foreground || background then
    match colorOf c with
    | none =>
      -- Silently ignore unknown tags (the `continue` arm)
      (cell, false, false)
    | some color =>
      let cell :=
        if foreground then cell.add_style (Attr.ForegroundColor color)
        else if background then cell.add_style (Attr.BackgroundColor color)
        else cell
      (cell, false, false)
  else
    match c with
    | 'F' => (cell, true, background)
    | 'B' => (cell, foreground, true)
    | 'b' => (cell.add_style Attr.Bold, foreground, background)
    | 'i' => (cell.add_style (Attr.Italic true), foreground, background)
    | 'u' => (cell.add_style (Attr.Underline true), foreground, background)
    | 'c' => (cell.set_align Alignment.CENTER, foreground, background)
    | 'l' => (cell.set_align Alignment.LEFT, foreground, background)
    | 'r' => (cell.set_align Alignment.RIGHT, foreground, background)
    | _ => (cell, foreground, background)

/-- `Cell::style_spec` from `cell.rs`: reset the style, then run the
character loop.  Total: no input can make it fail. -/
def Cell.style_spec (self : Cell T) (spec : String) : Cell T :=
  (spec.data.foldl style_spec_step (self.reset_style, false, false)).1

/-- The `Row` struct from `row.rs`: an ordered sequence of cells. -/
structure Row (T : Type) where
  cells : List (Cell T)
deriving DecidableEq, Repr

/-- `Row::new` from `row.rs`. -/
def Row.new (cells : List (Cell T)) : Row T :=
  { cells := cells }

/-- `Row::empty` from `row.rs`. -/
def Row.empty : Row T :=
  Row.new []

/-- `Row::len` from `row.rs`: the number of cells. -/
def Row.len (self : Row T) : Nat :=
  self.cells.length

/-- `Row::get_height` from `row.rs`: the running-maximum loop over the
cells' heights, started at 1. -/
def Row.get_height [CellContent T] (self : Row T) : Nat :=
  self.cells.foldl (fun height cell =>
    if cell.get_height > height then cell.get_height else height) 1

/-- `Row::get_cell_width` from `row.rs`:
`self.cells.get(column).map(|cell| cell.get_width()).unwrap_or(0)`. -/
def Row.get_cell_width [CellContent T] (self : Row T) (column : Nat) : Nat :=
  ((self.cells.get? column).map Cell.get_width).getD 0

/-- `Row::get_cell` from `row.rs`. -/
def Row.get_cell (self : Row T) (idx : Nat) : Option (Cell T) :=
  self.cells.get? idx

/-- `Row::set_cell` from `row.rs`: fails with "Cannot find cell" when
`column` is not an existing index, else overwrites that slot. -/
def Row.set_cell (self : Row T) (cell : Cell T) (column : Nat) : Except String (Row T) :=
  if column ≥ self.len then Except.error "Cannot find cell"
  else Except.ok { cells := self.cells.set column cell }

/-- `Row::add_cell` from `row.rs`. -/
def Row.add_cell (self : Row T) (cell : Cell T) : Row T :=
  { cells := self.cells ++ [cell] }

/-- `Row::insert_cell` from `row.rs`: `Vec::insert` at an in-range
index, append otherwise. -/
def Row.insert_cell (self : Row T) (index : Nat) (cell : Cell T) : Row T :=
  if index < self.cells.length then
    { cells := self.cells.take index ++ cell :: self.cells.drop index }
  else
    self.add_cell cell

/-- `Row::remove_cell` from `row.rs`: silently skip on an invalid index. -/
def Row.remove_cell (self : Row T) (index : Nat) : Row T :=
  if index < self.cells.length then
    { cells := self.cells.take index ++ self.cells.drop (index + 1) }
  else self

/-- `impl Default for Row` from `row.rs`. -/
def Row.default : Row T :=
  Row.empty

/-- The `Table` struct from `lib.rs` (the `Box` indirections of the
`format` and `titles` fields carry no meaning in a value model). -/
structure Table (T : Type) where
  format : TableFormat
  titles : Option (Row T)
  rows : List (Row T)
deriving DecidableEq, Repr

/-- The `TableSlice` struct from `lib.rs`: a borrowed view, rendered
here as a value holding the format, the optional title row and a
contiguous sub-sequence of rows. -/
structure TableSlice (T : Type) where
  format : TableFormat
  titles : Option (Row T)
  rows : List (Row T)
deriving DecidableEq, Repr

/-- `impl AsRef<TableSlice> for Table` from `lib.rs`: view the whole
table (the source performs this with an unsafe cast; the model simply
repackages the three fields). -/
def Table.as_ref (self : Table T) : TableSlice T :=
  { format := self.format, titles := self.titles, rows := self.rows }

/-- `TableSlice::get_column_num` from `lib.rs`: the running-maximum
loop over the data rows' lengths.  The title row is never consulted. -/
def TableSlice.get_column_num (self : TableSlice T) : Nat :=
  self.rows.foldl (fun cnum r => if r.len > cnum then r.len else cnum) 0

/-- `TableSlice::len` from `lib.rs`. -/
def TableSlice.len (self : TableSlice T) : Nat :=
  self.rows.length

/-- `TableSlice::get_column_width` from `lib.rs`: the running-maximum
loop over the rows' cell widths at `col_idx`, started at the title
row's cell width there (0 when there is no title). -/
def TableSlice.get_column_width [CellContent T] (self : TableSlice T) (col_idx : Nat) : Nat :=
  let width :=
    match self.titles with
    | some t => t.get_cell_width col_idx
    | none => 0
  self.rows.foldl (fun width r =>
    if r.get_cell_width col_idx > width then r.get_cell_width col_idx else width) width

/-- `TableSlice::get_all_column_width` from `lib.rs`: one
`get_column_width` per column index below `get_column_num`. -/
def TableSlice.get_all_column_width [CellContent T] (self : TableSlice T) : List Nat :=
  (List.range self.get_column_num).map self.get_column_width

/-- `Table::new` from `lib.rs`. -/
def Table.new : Table T :=
  { format := default, titles := none, rows := [] }

/-- `Table::init` from `lib.rs`. -/
def Table.init (rows : List (Row T)) : Table T :=
  { format := default, titles := none, rows := rows }

/-- `Table::get_column_num` from `lib.rs`: delegates to the slice view. -/
def Table.get_column_num (self : Table T) : Nat :=
  self.as_ref.get_column_num

/-- `Table::len` from `lib.rs`. -/
def Table.len (self : Table T) : Nat :=
  self.rows.length

/-- `Table::set_titles` from `lib.rs`. -/
def Table.set_titles (self : Table T) (titles : Row T) : Table T :=
  { self with titles := some titles }

/-- `Table::get_row` from `lib.rs` (also standing in for `get_mut_row`:
in a functional model reading the row is the same operation). -/
def Table.get_row (self : Table T) (row : Nat) : Option (Row T) :=
  self.rows.get? row

/-- `Table::add_row` from `lib.rs` (the returned `&mut` reference is
the slot itself; the model returns the grown table). -/
def Table.add_row (self : Table T) (row : Row T) : Table T :=
  { self with rows := self.rows ++ [row] }

/-- `Table::insert_row` from `lib.rs`: `Vec::insert` at an in-range
index, `add_row` otherwise. -/
def Table.insert_row (self : Table T) (index : Nat) (row : Row T) : Table T :=
  if index < self.rows.length then
    { self with rows := self.rows.take index ++ row :: self.rows.drop index }
  else
    self.add_row row

/-- `Table::set_element` from `lib.rs`: find the row (else "Cannot find
row"), then `set_cell` a freshly built `Cell::new(&element)` there. -/
def Table.set_element (self : Table T) (element : T) (column row : Nat) :
    Except String (Table T) :=
  match self.rows.get? row with
  | none => Except.error "Cannot find row"
  | some rowline =>
    match rowline.set_cell (Cell.new element) column with
    | Except.error e => Except.error e
    | Except.ok newRow => Except.ok { self with rows := self.rows.set row newRow }

/-- `Table::remove_row` from `lib.rs`: silently skip on an invalid index. -/
def Table.remove_row (self : Table T) (index : Nat) : Table T :=
  if index < self.rows.length then
    { self with rows := self.rows.take index ++ self.rows.drop (index + 1) }
  else self

/-- The `ColumnIter` struct from `lib.rs`: a row iterator (modelled by
the list of rows not yet consumed) paired with a column index. -/
structure ColumnIter (T : Type) where
  rows : List (Row T)
  column : Nat
deriving DecidableEq, Repr

/-- `Iterator::next` for `ColumnIter` from `lib.rs`:
`self.0.next().and_then(|row| row.get_cell(self.1))`.  The underlying
row iterator advances whether or not the row has a cell at the column. -/
def ColumnIter.next (self : ColumnIter T) : Option (Cell T) × ColumnIter T :=
  match self.rows with
  | [] => (none, self)
  | r :: rest => (r.get_cell self.column, { self with rows := rest })

/-- Consuming a `ColumnIter` the way a `for` loop does: keep calling
`next` and stop at the first `none`.  `fuel` bounds the number of calls
(callers pass the row count, which is always enough). -/
def ColumnIter.toList : Nat → ColumnIter T → List (Cell T)
  | 0, _ => []
  | fuel + 1, it =>
    match it.next with
    | (none, _) => []
    | (some c, it2) => c :: ColumnIter.toList fuel it2

/-- `Table::column_iter` from `lib.rs`. -/
def Table.column_iter (self : Table T) (column : Nat) : ColumnIter T :=
  { rows := self.rows, column := column }

/-- `TableSlice::column_iter` from `lib.rs`. -/
def TableSlice.column_iter (self : TableSlice T) (column : Nat) : ColumnIter T :=
  { rows := self.rows, column := column }

/-- The range arguments accepted by `Slice::slice` in `lib.rs` (every
`E` with `[Row<T>]: Index<E, Output = [Row<T>]>`): `..`, `a..`, `..b`
and `a..b`. -/
inductive RangeArg where
  | rangeFull
  | rangeFrom (a : Nat)
  | rangeTo (b : Nat)
  | range (a b : Nat)
deriving DecidableEq, Repr

/-- Rust slice indexing `&rows[arg]` as used by `Slice::slice` in
`lib.rs`; out-of-bounds (or inverted) ranges panic, modelled as `none`. -/
def sliceIndex (rows : List α) (arg : RangeArg) : Option (List α) :=
  match arg with
  | RangeArg.rangeFull => some rows
  | RangeArg.rangeFrom a =>
    if a ≤ rows.length then some (rows.drop a) else none
  | RangeArg.rangeTo b =>
    if b ≤ rows.length then some (rows.take b) else none
  | RangeArg.range a b =>
    if a ≤ b ∧ b ≤ rows.length then some ((rows.drop a).take (b - a)) else none

/-- `impl Slice for TableSlice` from `lib.rs`: same format and title,
rows re-indexed by the range. -/
def TableSlice.slice (self : TableSlice T) (arg : RangeArg) : Option (TableSlice T) :=
  (sliceIndex self.rows arg).map (fun rows =>
    { format := self.format, titles := self.titles, rows := rows })

/-- Slicing an owned `Table` (`table.slice(..)` in the tests and docs):
borrow the whole table with `as_ref`, then slice the view. -/
def Table.slice (self : Table T) (arg : RangeArg) : Option (TableSlice T) :=
  self.as_ref.slice arg

/-- One observable output event of a print run.  `format.rs` is not
under `src/`, so the bytes a line separator writes are abstracted into
a single event recording the call made on the format (with the column
widths it was given); the bytes a row printer writes are whatever the
per-row function `f` passed to `__print` emits; `flush` records the
final `out.flush()`. -/
inductive PrintEv (T : Type) where
  | lineSep (col_width : List Nat) (pos : LinePosition)
  | rowChunk (r : Row T)
  | flush
deriving DecidableEq, Repr

/-- `TableFormat::print_line_separator` at the call granularity: append
one `lineSep` event to the output. -/
def print_line_separator (out : List (PrintEv T)) (col_width : List Nat)
    (pos : LinePosition) : List (PrintEv T) :=
  out ++ [PrintEv.lineSep col_width pos]

/-- The `while let Some(r) = iter.next()` loop of `TableSlice::__print`
from `lib.rs`, on a peekable row iterator: print the row, then an
`Intern` separator exactly when `iter.peek().is_some()`. -/
def printRowsLoop (f : Row T → List Nat → List (PrintEv T)) (col_width : List Nat)
    (out : List (PrintEv T)) : List (Row T) → List (PrintEv T)
  | [] => out
  | r :: rest =>
    let out := out ++ f r col_width
    let out :=
      if rest.isEmpty then out
      else print_line_separator out col_width LinePosition.Intern
    printRowsLoop f col_width out rest

/-- `TableSlice::__print` from `lib.rs`, with the sink modelled as an
event list: compute the column widths, print the `Top` separator, the
title row (then the `Title` separator) when present, the row loop, the
`Bottom` separator, and flush.  `f` is the per-row print function
(`Row::print` or `Row::print_term`, both of which forward to
`Row::__print` varying only the per-cell print function). -/
def TableSlice.__print [CellContent T] (self : TableSlice T)
    (f : Row T → List Nat → List (PrintEv T)) : List (PrintEv T) :=
  let col_width := self.get_all_column_width
  let out := print_line_separator [] col_width LinePosition.Top
  let out :=
    match self.titles with
    | some t => print_line_separator (out ++ f t col_width) col_width LinePosition.Title
    | none => out
  let out := printRowsLoop f col_width out self.rows
  let out := print_line_separator out col_width LinePosition.Bottom
  out ++ [PrintEv.flush]

/-! ### Specification-side definitions

The next definitions follow the specification's words, not the code;
each is compared against the corresponding embedded source function by
a refinement theorem below. -/

/-- Chunks in order, with `sep` between consecutive chunks and after no
other chunk ("an Intern line separator after every row except the
last"). -/
def interleaveSep (sep : List α) : List (List α) → List α
  | [] => []
  | [x] => x
  | x :: xs => x ++ sep ++ interleaveSep sep xs

/-- The render sequence exactly as the specification describes it:
"print Top separator; if title present, print title row then Title
separator; for each data row print the row then, if not the last row,
print an Intern separator; finally print Bottom separator; flush sink". -/
def specPrintSequence [CellContent T] (s : TableSlice T)
    (f : Row T → List Nat → List (PrintEv T)) : List (PrintEv T) :=
  let w := s.get_all_column_width
  [PrintEv.lineSep w LinePosition.Top]
    ++ (match s.titles with
        | some t => f t w ++ [PrintEv.lineSep w LinePosition.Title]
        | none => [])
    ++ interleaveSep [PrintEv.lineSep w LinePosition.Intern]
        (s.rows.map (fun r => f r w))
    ++ [PrintEv.lineSep w LinePosition.Bottom, PrintEv.flush]

/-- The column cells the specification reading of claim C10 predicts:
the column-`j` cells of the longest prefix of rows that each have a
cell at index `j`. -/
def columnPrefixCells (rows : List (Row T)) (j : Nat) : List (Cell T) :=
  (rows.takeWhile (fun r => decide (j < r.len))).filterMap (fun r => r.get_cell j)

/-! ### Helper lemmas -/

/-- A running-maximum `foldl` with an `if`-update computes the maximum
of the starting value and all mapped elements. -/
theorem foldl_if_gt_eq_max (f : α → Nat) (l : List α) (a : Nat) :
    l.foldl (fun m x => if f x > m then f x else m) a
      = max a ((l.map f).foldr max 0) := by
  induction l generalizing a with
  | nil => simp
  | cons x xs ih =>
    have hstep : (if f x > a then f x else a) = max a (f x) := by
      rcases Nat.le_total a (f x) with h | h
      · rw [max_eq_right h]
        split <;> omega
      · rw [max_eq_left h]
        split <;> omega
    simp only [List.foldl_cons, List.map_cons, List.foldr_cons, ih, hstep,
      max_assoc]

/-! ### Concrete example values -/

/-- A one-line text cell, as `Cell::new(&CellLines::from(s))` builds it. -/
def mkCell (s : String) : Cell CellLines :=
  Cell.new (CellLines.fromString s)

/-- A table whose title row (2 cells) is longer than its only data row
(1 cell). -/
def c1Table : Table CellLines :=
  { format := default,
    titles := some (Row.new [mkCell "t1", mkCell "t2"]),
    rows := [Row.new [mkCell "a"]] }

/-! ### Claims -/

/-- C1 (counterexample): on a table whose title row has 2 cells while
every data row has at most 1, `get_column_num` returns 1, not the title
row's length 2 — the title row is not part of the column count. -/
theorem c1_title_longer_counterexample :
    c1Table.titles.elim 0 Row.len = 2 ∧
    (c1Table.rows.map Row.len).foldr max 0 = 1 ∧
    c1Table.get_column_num = 1 ∧
    c1Table.get_column_num ≠ 2 := by decide

/-- C1 (amended): for every table and every table slice the computed
column count equals the maximum row length over the data rows alone;
the title row is never consulted, so a longer title row does not raise
the count. -/
theorem get_column_num_eq_data_rows_max (s : TableSlice T) (t : Table T) :
    s.get_column_num = (s.rows.map Row.len).foldr max 0 ∧
    t.get_column_num = (t.rows.map Row.len).foldr max 0 := by
  constructor
  · unfold TableSlice.get_column_num
    rw [foldl_if_gt_eq_max Row.len]
    simp
  · unfold Table.get_column_num Table.as_ref TableSlice.get_column_num
    rw [foldl_if_gt_eq_max Row.len]
    simp

/-- C2 (code evaluation at the failing input): `CellLines::get_width`
returns the maximum *byte* length of the lines, so the 7-character CJK
string `"由系统自动更新"` (21 UTF-8 bytes, display width 14) gets width
21, not 14 — contradicting the repository's own `print_cjk` test, which
asserts 14. -/
theorem c2_get_width_byte_length_cjk :
    (CellLines.fromString "由系统自动更新").get_width = 21 ∧
    (CellLines.fromString "由系统自动更新").get_width ≠ 14 := by decide

/-- C3 (code evaluation at the failing input): the default cell and a
cell built from the empty string both have no lines, so `get_height`
returns 0, not the minimum of 1 the claim states — contradicting the
repository's own `default_empty_cell` test, which asserts 1. -/
theorem c3_empty_cell_height_zero :
    (Cell.default : Cell CellLines).get_height = 0 ∧
    (Cell.new (CellLines.fromString "")).get_height = 0 ∧
    CellLines.default.get_height = 0 := by decide

/-- C4: the rendering column width at index `i` is the maximum of the
cell widths at column `i` over the title row (when present) and all
data rows, and a row shorter than `i + 1` cells contributes 0 instead
of failing. -/
theorem get_column_width_max_title_rows [CellContent T] (s : TableSlice T) (i : Nat) :
    (s.get_column_width i =
      ((match s.titles with
        | some t => [t.get_cell_width i]
        | none => []) ++ s.rows.map (fun r => r.get_cell_width i)).foldr max 0) ∧
    (∀ r : Row T, r.len ≤ i → r.get_cell_width i = 0) := by
  constructor
  · unfold TableSlice.get_column_width
    cases h : s.titles with
    | none =>
      simp only [h]
      rw [foldl_if_gt_eq_max (f := fun r : Row T => r.get_cell_width i)]
      simp
    | some t =>
      simp only [h]
      rw [foldl_if_gt_eq_max (f := fun r : Row T => r.get_cell_width i)]
      simp
  · intro r h
    unfold Row.get_cell_width
    rw [List.get?_eq_none.mpr h]
    rfl

/-- C4 witness: a 1-cell row contributes 0 at column 5. -/
theorem get_column_width_max_title_rows_witness :
    (Row.new [mkCell "a"]).len ≤ 5 ∧ (Row.new [mkCell "a"]).get_cell_width 5 = 0 :=
  ⟨by decide,
   (get_column_width_max_title_rows c1Table.as_ref 5).2 (Row.new [mkCell "a"]) (by decide)⟩

/-- The peekable row loop of `__print` prints the rows in order with an
`Intern` separator between consecutive rows only. -/
theorem printRowsLoop_eq_interleave (f : Row T → List Nat → List (PrintEv T))
    (w : List Nat) (out : List (PrintEv T)) (rows : List (Row T)) :
    printRowsLoop f w out rows
      = out ++ interleaveSep [PrintEv.lineSep w LinePosition.Intern]
          (rows.map (fun r => f r w)) := by
  induction rows generalizing out with
  | nil => simp [printRowsLoop, interleaveSep]
  | cons r rest ih =>
    cases rest with
    | nil => simp [printRowsLoop, interleaveSep]
    | cons r2 rest2 =>
      rw [printRowsLoop, ih]
      simp [print_line_separator, interleaveSep]

/-- C5: `__print` emits exactly the sequence the specification
describes — Top separator; title row and Title separator when a title
is present; the data rows in order with an Intern separator after
every row but the last; the Bottom separator; a final flush — and the
same sequence is produced for any per-row print function `f` (plain
`Row::print` and styled `Row::print_term` differ only in the per-cell
function they hand to the shared row printer). -/
theorem print_emits_spec_sequence [CellContent T] (s : TableSlice T)
    (f : Row T → List Nat → List (PrintEv T)) :
    s.__print f = specPrintSequence s f := by
  unfold TableSlice.__print specPrintSequence
  cases h : s.titles with
  | none =>
    simp [h, printRowsLoop_eq_interleave, print_line_separator]
  | some t =>
    simp [h, printRowsLoop_eq_interleave, print_line_separator]

/-- C6: on a table with at least 4 rows, `slice(1..4)` and
`slice(..).slice(1..).slice(..3)` succeed and produce the same table
slice (same format, same title, same rows — range-of-range composes
without double-offsetting), so printing them gives identical output for
any per-row print function. -/
theorem slice_composition [CellContent T] (t : Table T)
    (f : Row T → List Nat → List (PrintEv T)) (h : 4 ≤ t.rows.length) :
    (t.slice (RangeArg.range 1 4) =
      ((t.slice RangeArg.rangeFull).bind (fun s => s.slice (RangeArg.rangeFrom 1))).bind
        (fun s => s.slice (RangeArg.rangeTo 3))) ∧
    (t.slice (RangeArg.range 1 4)).isSome ∧
    ((t.slice (RangeArg.range 1 4)).map (fun s => s.__print f) =
      (((t.slice RangeArg.rangeFull).bind (fun s => s.slice (RangeArg.rangeFrom 1))).bind
        (fun s => s.slice (RangeArg.rangeTo 3))).map (fun s => s.__print f)) := by
  have hA : 1 ≤ t.rows.length := by omega
  have hB : 3 ≤ t.rows.length - 1 := by omega
  have hmain : t.slice (RangeArg.range 1 4) =
      ((t.slice RangeArg.rangeFull).bind (fun s => s.slice (RangeArg.rangeFrom 1))).bind
        (fun s => s.slice (RangeArg.rangeTo 3)) := by
    simp [Table.slice, Table.as_ref, TableSlice.slice, sliceIndex, h, hA, hB]
  refine ⟨hmain, ?_, by rw [hmain]⟩
  simp [Table.slice, Table.as_ref, TableSlice.slice, sliceIndex, h]

/-- A 4-row table for the C6 witness. -/
def c6Table : Table CellLines :=
  { format := default, titles := none,
    rows := [Row.new [mkCell "0"], Row.new [mkCell "1"],
             Row.new [mkCell "2"], Row.new [mkCell "3"]] }

/-- C6 witness: the 4-row table satisfies the hypothesis and its
`slice(1..4)` succeeds. -/
theorem slice_composition_witness :
    4 ≤ c6Table.rows.length ∧ (c6Table.slice (RangeArg.range 1 4)).isSome :=
  ⟨by decide, (slice_composition c6Table (fun _ _ => []) (by decide)).2.1⟩

/-- C7: style-spec parsing is total and an unknown color code after `F`
or `B` cancels the pending foreground/background state, emits no
attribute and no error, and parsing continues with the remaining
characters; any other unknown character is silently skipped. -/
theorem style_spec_unknown_color_cancels (cell : Cell T) (c : Char) (s : List Char)
    (h : colorOf c = none) :
    (Cell.style_spec cell (String.mk ('F' :: c :: s)) = Cell.style_spec cell (String.mk s)) ∧
    (Cell.style_spec cell (String.mk ('B' :: c :: s)) = Cell.style_spec cell (String.mk s)) ∧
    (c ≠ 'F' → c ≠ 'B' → c ≠ 'b' → c ≠ 'i' → c ≠ 'u' → c ≠ 'c' → c ≠ 'l' → c ≠ 'r' →
      Cell.style_spec cell (String.mk (c :: s)) = Cell.style_spec cell (String.mk s)) := by
  refine ⟨?_, ?_, ?_⟩
  · simp [Cell.style_spec, style_spec_step, h]
  · simp [Cell.style_spec, style_spec_step, h]
  · intro h1 h2 h3 h4 h5 h6 h7 h8
    simp only [Cell.style_spec, List.foldl_cons]
    have hstep : style_spec_step (cell.reset_style, false, false) c
        = (cell.reset_style, false, false) := by
      simp only [style_spec_step, Bool.or_false]
      split <;> simp_all
    rw [hstep]

/-- C7 witness: `'z'` is outside the color table, and a `"Fz"` prefix
parses exactly like the empty remainder. -/
theorem style_spec_unknown_color_cancels_witness :
    colorOf 'z' = none ∧
    Cell.style_spec (mkCell "x") (String.mk ['F', 'z']) =
      Cell.style_spec (mkCell "x") (String.mk []) :=
  ⟨by decide, (style_spec_unknown_color_cancels (mkCell "x") 'z' [] (by decide)).1⟩

/-- `Vec::insert` at an in-range index: length grows by one, the new
element sits at the index, earlier elements keep their position, later
elements shift up by one. -/
theorem insertAt_get? (l : List α) (i : Nat) (x : α) (h : i < l.length) :
    ((l.take i ++ x :: l.drop i).length = l.length + 1) ∧
    ((l.take i ++ x :: l.drop i).get? i = some x) ∧
    (∀ j, j < i → (l.take i ++ x :: l.drop i).get? j = l.get? j) ∧
    (∀ j, i ≤ j → (l.take i ++ x :: l.drop i).get? (j + 1) = l.get? j) := by
  have hti : (l.take i).length = i := by
    simp [List.length_take, inf_eq_left]
    omega
  refine ⟨?_, ?_, ?_, ?_⟩
  · simp only [List.length_append, hti, List.length_cons, List.length_drop]
    omega
  · rw [List.get?_append_right (by omega), hti, Nat.sub_self]
    rfl
  · intro j hj
    rw [List.get?_append (by omega), List.get?_take hj]
  · intro j hj
    rw [List.get?_append_right (by omega), hti]
    have hj1 : j + 1 - i = j - i + 1 := by omega
    rw [hj1, List.get?_cons_succ, List.get?_drop]
    congr 1
    omega

/-- C8: `Row::insert_cell` and `Table::insert_row` append when the
index is at or past the current length, and otherwise insert at exactly
the index, shifting the later elements by one. -/
theorem insert_cell_insert_row_semantics (r : Row T) (t : Table T) (i : Nat)
    (cell : Cell T) (row : Row T) :
    (r.cells.length ≤ i → (r.insert_cell i cell).cells = r.cells ++ [cell]) ∧
    (i < r.cells.length →
      ((r.insert_cell i cell).cells.length = r.cells.length + 1 ∧
       (r.insert_cell i cell).cells.get? i = some cell ∧
       (∀ j, j < i → (r.insert_cell i cell).cells.get? j = r.cells.get? j) ∧
       (∀ j, i ≤ j → (r.insert_cell i cell).cells.get? (j + 1) = r.cells.get? j))) ∧
    (t.rows.length ≤ i → (t.insert_row i row).rows = t.rows ++ [row]) ∧
    (i < t.rows.length →
      ((t.insert_row i row).rows.length = t.rows.length + 1 ∧
       (t.insert_row i row).rows.get? i = some row ∧
       (∀ j, j < i → (t.insert_row i row).rows.get? j = t.rows.get? j) ∧
       (∀ j, i ≤ j → (t.insert_row i row).rows.get? (j + 1) = t.rows.get? j))) := by
  refine ⟨?_, ?_, ?_, ?_⟩
  · intro h
    unfold Row.insert_cell
    rw [if_neg (by omega)]
    rfl
  · intro h
    unfold Row.insert_cell
    rw [if_pos h]
    exact insertAt_get? r.cells i cell h
  · intro h
    unfold Table.insert_row
    rw [if_neg (by omega)]
    rfl
  · intro h
    unfold Table.insert_row
    rw [if_pos h]
    exact insertAt_get? t.rows i row h

/-- C8 witness: inserting at index 5 into a 1-cell row (1-row table)
appends. -/
theorem insert_cell_insert_row_semantics_witness :
    ((Row.new [mkCell "a"]).cells.length ≤ 5 ∧
      ((Row.new [mkCell "a"]).insert_cell 5 (mkCell "z")).cells
        = (Row.new [mkCell "a"]).cells ++ [mkCell "z"]) ∧
    (c1Table.rows.length ≤ 5 ∧
      (c1Table.insert_row 5 (Row.new [mkCell "z"])).rows
        = c1Table.rows ++ [Row.new [mkCell "z"]]) :=
  ⟨⟨by decide,
    (insert_cell_insert_row_semantics (Row.new [mkCell "a"]) c1Table 5 (mkCell "z")
      (Row.new [mkCell "z"])).1 (by decide)⟩,
   ⟨by decide,
    (insert_cell_insert_row_semantics (Row.new [mkCell "a"]) c1Table 5 (mkCell "z")
      (Row.new [mkCell "z"])).2.2.1 (by decide)⟩⟩

/-- C9: a successful `set_element` leaves at the addressed position a
freshly constructed `Cell::new(&element)` — new content, `LEFT`
alignment, empty style list — whatever the replaced cell's alignment
and style were. -/
theorem set_element_fresh_cell (t : Table T) (element : T) (column row : Nat)
    (t2 : Table T) (h : t.set_element element column row = Except.ok t2) :
    (t2.rows.get? row).bind (fun r => r.cells.get? column) = some (Cell.new element) := by
  unfold Table.set_element at h
  cases hr : t.rows.get? row with
  | none =>
    rw [hr] at h
    simp at h
  | some rowline =>
    rw [hr] at h
    by_cases hc : column ≥ rowline.len
    · simp [Row.set_cell, hc] at h
    · simp [Row.set_cell, hc] at h
      have hrow : row < t.rows.length := by
        rw [List.get?_eq_some] at hr
        exact hr.1
      have hcol : column < rowline.cells.length := by
        simp [Row.len] at hc
        omega
      subst h
      rw [List.get?_set_eq_of_lt _ (by simpa using hrow)]
      simp [List.getElem?_set_eq_of_lt _ hcol]

/-- A table whose single cell is center-aligned and bold, to be
overwritten by `set_element`. -/
def c9Before : Table CellLines :=
  { format := default, titles := none,
    rows := [Row.new [{ content := CellLines.fromString "old",
                        align := Alignment.CENTER,
                        style := [Attr.Bold] }]] }

/-- The table `set_element` produces from `c9Before`. -/
def c9After : Table CellLines :=
  { format := default, titles := none,
    rows := [Row.new [Cell.new (CellLines.fromString "new")]] }

/-- C9 witness: overwriting the styled cell of `c9Before` leaves a
fresh LEFT-aligned unstyled cell. -/
theorem set_element_fresh_cell_witness :
    (c9After.rows.get? 0).bind (fun r => r.cells.get? 0)
      = some (Cell.new (CellLines.fromString "new")) :=
  set_element_fresh_cell c9Before (CellLines.fromString "new") 0 0 c9After (by rfl)

/-- Consuming a `ColumnIter` with as much fuel as there are rows
collects exactly the column cells of the longest all-long-enough row
prefix. -/
theorem columnIter_toList_eq (j : Nat) (rows : List (Row T)) :
    ColumnIter.toList rows.length { rows := rows, column := j }
      = columnPrefixCells rows j := by
  induction rows with
  | nil => rfl
  | cons r rest ih =>
    show ColumnIter.toList (rest.length + 1) ⟨r :: rest, j⟩ = _
    cases hc : r.get_cell j with
    | none =>
      have hlen : ¬ j < r.len := by
        unfold Row.get_cell at hc
        rw [List.get?_eq_none] at hc
        unfold Row.len
        omega
      simp [ColumnIter.toList, ColumnIter.next, hc, columnPrefixCells,
        List.takeWhile_cons, hlen]
    | some c =>
      have hlt : j < r.len := by
        unfold Row.get_cell at hc
        rw [List.get?_eq_some] at hc
        unfold Row.len
        exact hc.1
      simp only [ColumnIter.toList, ColumnIter.next, hc]
      simp [columnPrefixCells, List.takeWhile_cons, hlt, hc] at ih ⊢
      exact ih

/-- C10: the column iterator at column `j` (for a table or a slice)
yields the column-`j` cells of exactly the longest prefix of rows that
each have a cell at index `j`: it stops at the first too-short row and
yields nothing from any later row, even when later rows do have a cell
at column `j`. -/
theorem column_iter_yields_longest_prefix (t : Table T) (s : TableSlice T) (j : Nat) :
    (t.column_iter j).toList t.rows.length = columnPrefixCells t.rows j ∧
    (s.column_iter j).toList s.rows.length = columnPrefixCells s.rows j :=
  ⟨columnIter_toList_eq j t.rows, columnIter_toList_eq j s.rows⟩

end PrettyTable
